import Mathlib

set_option maxHeartbeats 1000000

/-!
Shallow embedding of `scripts/import_models.py`.

The script parses a JSON snapshot of model entries and downloads each file into
a destination directory tree.  We model JSON values, the filesystem (a map from
path strings to optional byte contents), the network (an oracle giving the
outcome of each download attempt of each URL), and the observable effects
(network requests, log lines, sleeps, directory creation) as an event list.
Python exceptions that the script does not catch are modelled with
`Except String`; an `.error` result is a crashed run.
-/

/-- Json values as produced by `json.load`; numbers are modelled as integers
(the claims under study never depend on fractional numeric values). -/
inductive Json where
  | null : Json
  | bool (b : Bool) : Json
  | num (n : Int) : Json
  | str (s : String) : Json
  | arr (elems : List Json) : Json
  | obj (kvs : List (String × Json)) : Json

/-- Python truthiness of a JSON value (`if not url:` etc.). -/
def truthy : Json → Bool
  | .null => false
  | .bool b => b
  | .num n => n != 0
  | .str s => s != ""
  | .arr l => !l.isEmpty
  | .obj l => !l.isEmpty

/-- Python `a or b`: the left value if truthy, otherwise the right value. -/
def pyOr (a b : Json) : Json := if truthy a then a else b

/-- `entry.get(k)` on a dict: the value stored under `k`, or `None` (here
`Json.null`) when the key is missing. -/
def jget (kvs : List (String × Json)) (k : String) : Json :=
  (kvs.lookup k).getD Json.null

/-- The static keyword-to-folder table `DEFAULT_LAYOUT`, in the source's
(Python dict insertion) order. -/
def DEFAULT_LAYOUT : List (String × List String) :=
  [("checkpoints", ["ckpt", "safetensors", "pt"]),
   ("vae", ["vae"]),
   ("diffusers", ["diffusers", "diffuser"]),
   ("embeddings", ["embeddings", "bin"]),
   ("clip", ["clip"]),
   ("upscale_models", ["upscale", "realesrgan"])]

/-- Python's substring test `needle in hay` on strings. -/
def strContains (hay needle : String) : Bool :=
  hay.data.tails.any (fun t => needle.data.isPrefixOf t)

/-- Python `str.lower()` (ASCII case folding suffices for the inputs at
hand). -/
def strLower (s : String) : String := String.mk (s.data.map Char.toLower)

/-- `choose_folder_by_name`: lowercase the filename and return the first folder
of `DEFAULT_LAYOUT` (in table order) one of whose keywords occurs in the name;
default to `"checkpoints"`. -/
def choose_folder_by_name (filename : String) : String :=
  let name := strLower filename
  match DEFAULT_LAYOUT.find? (fun fk => fk.2.any (fun kw => strContains name kw)) with
  | some fk => fk.1
  | none => "checkpoints"

/-- The characters before the first occurrence of `c` (Python
`s.split(c)[0]`). -/
def beforeChar (c : Char) : List Char → List Char
  | [] => []
  | x :: xs => if x = c then [] else x :: beforeChar c xs

/-- The characters after the last `/` (POSIX `os.path.basename`). -/
def afterLastSlash (l : List Char) : List Char :=
  (l.reverse.takeWhile (fun c => c ≠ '/')).reverse

/-- `os.path.basename(url.split("?")[0])`: strip the query string, then take
the final `/`-separated segment. -/
def urlBasename (url : String) : String :=
  String.mk (afterLastSlash (beforeChar '?' url.data))

/-- `pathlib` `/` join on POSIX path strings: an absolute right operand
replaces the left, otherwise the parts are joined with `/`. -/
def pathJoin (a b : String) : String :=
  if b.data.head? = some '/' then b
  else if a.data.getLast? = some '/' then a ++ b
  else a ++ "/" ++ b

/-- `Path(p).parent` for a POSIX path string with at least one separator:
everything before the last `/`. -/
def dirname (p : String) : String :=
  String.mk (((p.data.reverse.dropWhile (fun c => c ≠ '/')).drop 1).reverse)

/-- The URL fields tried by `main`, in source order. -/
def urlFields : List String := ["download_url", "url", "file_url", "location"]

/-- `entry.get("download_url") or entry.get("url") or entry.get("file_url")
or entry.get("location")`. -/
def urlOf (kvs : List (String × Json)) : Json :=
  pyOr (jget kvs "download_url")
    (pyOr (jget kvs "url") (pyOr (jget kvs "file_url") (jget kvs "location")))

/-- `entry.get("name") or entry.get("filename") or None`. -/
def nameOf (kvs : List (String × Json)) : Json :=
  pyOr (jget kvs "name") (jget kvs "filename")

/-- `entry.get("path") or entry.get("relative_path") or None`. -/
def relOf (kvs : List (String × Json)) : Json :=
  pyOr (jget kvs "path") (jget kvs "relative_path")

/-- Display-name resolution (`if not name: name = os.path.basename(...)`).
A non-string URL with no truthy name crashes (`AttributeError` on `.split`). -/
def resolveName (urlJ nameJ : Json) : Except String Json :=
  if truthy nameJ then .ok nameJ
  else
    match urlJ with
    | .str u => .ok (.str (urlBasename u))
    | _ => .error "AttributeError: split on non-string url"

/-- Destination resolution: the explicit relative path when truthy, otherwise
`destRoot / choose_folder_by_name(name) / name`.  Returns the destination path
and the directory passed to `ensure_dir`.  A truthy non-string path crashes
(`TypeError` in the `/` join); a truthy non-string name crashes
(`AttributeError` on `.lower`). -/
def resolveDest (root : String) (relJ nm : Json) : Except String (String × String) :=
  if truthy relJ then
    match relJ with
    | .str rel => .ok (pathJoin root rel, dirname (pathJoin root rel))
    | _ => .error "TypeError: unsupported operand for path join"
  else
    match nm with
    | .str n =>
      let folder := choose_folder_by_name n
      .ok (pathJoin (pathJoin root folder) n, pathJoin root folder)
    | _ => .error "AttributeError: lower on non-string name"

/-- Outcome of resolving one entry, before the existence check and download. -/
inductive Resolved where
  | noUrl : Resolved
  | entry (urlJ : Json) (dest mk : String) : Resolved

/-- Lines 94-113 of `main` for one entry: field lookup (crashes on a non-dict
entry), the `if not url` skip, name resolution, destination resolution. -/
def resolveEntry (root : String) (e : Json) : Except String Resolved :=
  match e with
  | .obj kvs =>
    if truthy (urlOf kvs) then
      match resolveName (urlOf kvs) (nameOf kvs) with
      | .error m => .error m
      | .ok nm =>
        match resolveDest root (relOf kvs) nm with
        | .error m => .error m
        | .ok (dest, mk) => .ok (.entry (urlOf kvs) dest mk)
    else .ok .noUrl
  | _ => .error "AttributeError: get on non-mapping entry"

/-- The filesystem: each path holds either nothing or a byte string. -/
abbrev FS : Type := String → Option (List Nat)

/-- Point update of the filesystem (`none` models removal). -/
def FS.set (fs : FS) (p : String) (v : Option (List Nat)) : FS :=
  fun q => if q = p then v else fs q

/-- Outcome of one download attempt, decided by the network:
`ok body` — `urlopen` and the full copy to the temporary file succeed;
`failMid chunk` — `urlopen` succeeds but the copy fails after writing `chunk`;
`failConn` — `urlopen` itself fails, the temporary file is not touched. -/
inductive Attempt where
  | ok (body : List Nat) : Attempt
  | failMid (chunk : List Nat) : Attempt
  | failConn : Attempt

/-- Observable effects of a run, in order of occurrence. -/
inductive Event where
  | request (url : String)
  | logFail (attempt : Nat)
  | sleep (d : ℚ)
  | mkdirs (dir : String)
  | logSkipNoUrl
  | alreadyExists (dest : String)
  | downloading (dest : String)
  | downloadedMsg (dest : String)
  | failedMsg (dest : String)
  | unrecognizedStructure
  | foundCount (n : Nat)
  | summary (n : Nat)

/-- Does the event denote a network request (`urlopen` call)? -/
def Event.isRequest : Event → Bool
  | .request _ => true
  | _ => false

/-- The retry loop of `download_file`, one iteration per attempt number in
`atts`.  A successful attempt writes the full body to `tmp`, then
`os.replace(tmp, dest)` atomically moves it onto `dest` and returns `True`.
A failed attempt logs the attempt number, sleeps `backoff * attempt`, and
continues; falling off the loop returns `False`. -/
def downloadLoop (url dest tmp : String) (backoff : ℚ) (net : Nat → Attempt) :
    List Nat → FS → (Bool × FS × List Event)
  | [], fs => (false, fs, [])
  | att :: rest, fs =>
    match net att with
    | .ok body =>
      (true, ((fs.set tmp (some body)).set dest (some body)).set tmp none,
       [.request url])
    | .failMid chunk =>
      let r := downloadLoop url dest tmp backoff net rest (fs.set tmp (some chunk))
      (r.1, r.2.1,
       .request url :: .logFail att :: .sleep (backoff * (att : ℚ)) :: r.2.2)
    | .failConn =>
      let r := downloadLoop url dest tmp backoff net rest fs
      (r.1, r.2.1,
       .request url :: .logFail att :: .sleep (backoff * (att : ℚ)) :: r.2.2)

/-- `download_file(url, dest, retries, backoff)`: attempts `1..retries` with
temporary file `dest + ".tmp"`. -/
def download_file (url dest : String) (net : Nat → Attempt) (fs : FS)
    (retries : Nat) (backoff : ℚ) : Bool × FS × List Event :=
  downloadLoop url dest (dest ++ ".tmp") backoff net (List.range' 1 retries) fs

/-- Effects of `download_file` when the URL value is a truthy non-string:
every `urlopen` raises before any network or file activity, the exception is
caught, logged and slept on, and all attempts fail. -/
def badUrlEvents (backoff : ℚ) : List Nat → List Event
  | [] => []
  | att :: rest =>
    .logFail att :: .sleep (backoff * (att : ℚ)) :: badUrlEvents backoff rest

/-- Lines 94-125 of `main` for one entry: resolve, `ensure_dir`, skip when the
destination exists, otherwise download with the default retries 3 and backoff
1.5.  Returns the new filesystem, the events, and whether `downloaded` was
incremented. -/
def processEntry (root : String) (net : String → Nat → Attempt) (e : Json)
    (fs : FS) : Except String (FS × List Event × Bool) :=
  match resolveEntry root e with
  | .error m => .error m
  | .ok .noUrl => .ok (fs, [.logSkipNoUrl], false)
  | .ok (.entry urlJ dest mk) =>
    if (fs dest).isSome then .ok (fs, [.mkdirs mk, .alreadyExists dest], false)
    else
      match urlJ with
      | .str u =>
        let r := download_file u dest (net u) fs 3 (3 / 2)
        .ok (r.2.1,
          .mkdirs mk :: .downloading dest ::
            (r.2.2 ++ [if r.1 then .downloadedMsg dest else .failedMsg dest]),
          r.1)
      | _ =>
        .ok (fs,
          .mkdirs mk :: .downloading dest ::
            (badUrlEvents (3 / 2) (List.range' 1 3) ++ [.failedMsg dest]),
          false)

/-- Lines 74-87 of `main`: normalize the manifest into the entry list.
A dict with a `models` list uses it; any other dict contributes its values;
a list is used directly; anything else is unrecognized (`none`). -/
def getEntries : Json → Option (List Json)
  | .obj kvs =>
    match kvs.lookup "models" with
    | some (.arr l) => some l
    | _ => some (kvs.map Prod.snd)
  | .arr l => some l
  | _ => none

/-- The per-entry loop of `main`: sequences `processEntry` over the entries,
accumulating the filesystem, the events, and the downloaded count. -/
def runLoop (root : String) (net : String → Nat → Attempt) :
    List Json → FS → Except String (FS × List Event × Nat)
  | [], fs => .ok (fs, [], 0)
  | e :: rest, fs =>
    match processEntry root net e fs with
    | .error m => .error m
    | .ok (fs1, evs1, dl) =>
      match runLoop root net rest fs1 with
      | .error m => .error m
      | .ok (fs2, evs2, n) =>
        .ok (fs2, evs1 ++ evs2, (if dl then 1 else 0) + n)

/-- Result of a run of `main` that did not crash. -/
structure RunResult where
  exitCode : Nat
  fs : FS
  events : List Event
  downloaded : Nat

/-- `main` after `json.load`: dispatch on the manifest shape (exit 1 when
unrecognized, with no downloads), then process every entry and exit 0.
An `.error` result models an uncaught Python exception (a crashed run). -/
def main_run (data : Json) (root : String) (net : String → Nat → Attempt)
    (fs0 : FS) : Except String RunResult :=
  match getEntries data with
  | none => .ok ⟨1, fs0, [.unrecognizedStructure], 0⟩
  | some es =>
    match runLoop root net es fs0 with
    | .error m => .error m
    | .ok (fs1, evs, n) =>
      .ok ⟨0, fs1, .foundCount es.length :: (evs ++ [.summary n]), n⟩

/-- The exit code of a run: `none` when the run crashed. -/
def exitCodeOf (r : Except String RunResult) : Option Nat :=
  match r with
  | .ok out => some out.exitCode
  | .error _ => none

/-- All entry fields `main` reads. -/
def entryFields : List String :=
  ["download_url", "url", "file_url", "location",
   "name", "filename", "path", "relative_path"]

/-- Is the value a string or null? -/
def strOrNull : Json → Bool
  | .str _ => true
  | .null => true
  | _ => false

/-- Well-formedness of an entry sufficient to rule out uncaught exceptions:
the entry is a JSON object and every recognized field, when present, holds a
string or null. -/
def entryWF (e : Json) : Bool :=
  match e with
  | .obj kvs => entryFields.all (fun k => strOrNull (jget kvs k))
  | _ => false

/-- The entries of a manifest, empty when the shape is unrecognized. -/
def entriesOf (data : Json) : List Json := (getEntries data).getD []

/-- Is the manifest a mapping? -/
def Json.isMapping : Json → Bool
  | .obj _ => true
  | _ => false

/-- Is the manifest a sequence? -/
def Json.isSequence : Json → Bool
  | .arr _ => true
  | _ => false

/-- URL resolution as the claim words it: the first *present non-absent*
value among the URL fields in order, a present `null` counting as absent.
This follows the specification text, for comparison with `urlOf`. -/
def specFirstPresentUrl (kvs : List (String × Json)) : Option Json :=
  (urlFields.filterMap (fun k => kvs.lookup k)).find?
    (fun v => match v with | .null => false | _ => true)

/-- The chunk written by the last attempt in `atts` that reached the
body-writing stage, if any. -/
def lastMidWrite (net : Nat → Attempt) (atts : List Nat) : Option (List Nat) :=
  (atts.filterMap (fun i =>
    match net i with
    | .failMid c => some c
    | _ => none)).getLast?

/-! ## Helper lemmas -/

lemma ne_append_tmp (d : String) : d ≠ d ++ ".tmp" := by
  intro h
  have hl := congrArg String.length h
  rw [String.length_append] at hl
  have h4 : ".tmp".length = 4 := rfl
  rw [h4] at hl
  omega

lemma FS.set_ne (fs : FS) (p : String) (v : Option (List Nat)) (q : String)
    (h : q ≠ p) : FS.set fs p v q = fs q := by
  simp [FS.set, h]

lemma attempt_not_ok_shape (a : Attempt) (h : ∀ b, a ≠ .ok b) :
    (∃ c, a = .failMid c) ∨ a = .failConn := by
  cases a with
  | ok b => exact absurd rfl (h b)
  | failMid c => exact .inl ⟨c, rfl⟩
  | failConn => exact .inr rfl

lemma downloadLoop_dest (url dest tmp : String) (backoff : ℚ) (net : Nat → Attempt)
    (hne : dest ≠ tmp) (atts : List Nat) : ∀ fs : FS,
    (downloadLoop url dest tmp backoff net atts fs).2.1 dest = fs dest ∨
    ∃ i b, net i = Attempt.ok b ∧
      (downloadLoop url dest tmp backoff net atts fs).2.1 dest = some b := by
  induction atts with
  | nil => intro fs; exact .inl rfl
  | cons att rest ih =>
    intro fs
    cases hn : net att with
    | ok body =>
      refine .inr ⟨att, body, hn, ?_⟩
      simp only [downloadLoop, hn]
      rw [FS.set_ne _ _ _ _ hne]
      simp [FS.set]
    | failMid c =>
      simp only [downloadLoop, hn]
      rcases ih (fs.set tmp (some c)) with h | ⟨i, b, hok, hres⟩
      · left
        rw [h, FS.set_ne _ _ _ _ hne]
      · exact .inr ⟨i, b, hok, hres⟩
    | failConn =>
      simp only [downloadLoop, hn]
      exact ih fs

/-! ## Claims -/

/-- Claim C1, counterexample: the lowercased filename `"vae.pt"` contains the
substring `"vae"`, yet `choose_folder_by_name` classifies it as
`"checkpoints"`, not `"vae"`, because the table entry `checkpoints` (keyword
`"pt"`) is tested first. -/
theorem folder_classification_cx :
    strContains (strLower "vae.pt") "vae" = true ∧
    choose_folder_by_name "vae.pt" = "checkpoints" ∧
    choose_folder_by_name "vae.pt" ≠ "vae" := by decide

/-- Claim C1 (amended): classification lowercases the name and tests the
table's folders in fixed order, first substring match winning.  Hence a
filename whose lowercased form contains `"vae"` but none of the `checkpoints`
keywords (`"ckpt"`, `"safetensors"`, `"pt"`) maps to `"vae"`, and a filename
whose lowercased form contains no keyword at all maps to `"checkpoints"`. -/
theorem folder_classification_amended (s t : String)
    (h1 : strContains (strLower s) "vae" = true)
    (h2 : strContains (strLower s) "ckpt" = false)
    (h3 : strContains (strLower s) "safetensors" = false)
    (h4 : strContains (strLower s) "pt" = false)
    (h5 : ∀ kw ∈ (DEFAULT_LAYOUT.map Prod.snd).flatten, strContains (strLower t) kw = false) :
    choose_folder_by_name s = "vae" ∧ choose_folder_by_name t = "checkpoints" := by
  constructor
  · simp [choose_folder_by_name, DEFAULT_LAYOUT, List.find?, h1, h2, h3, h4]
  · have c1 := h5 "ckpt" (by decide)
    have c2 := h5 "safetensors" (by decide)
    have c3 := h5 "pt" (by decide)
    have c4 := h5 "vae" (by decide)
    have c5 := h5 "diffusers" (by decide)
    have c6 := h5 "diffuser" (by decide)
    have c7 := h5 "embeddings" (by decide)
    have c8 := h5 "bin" (by decide)
    have c9 := h5 "clip" (by decide)
    have c10 := h5 "upscale" (by decide)
    have c11 := h5 "realesrgan" (by decide)
    simp [choose_folder_by_name, DEFAULT_LAYOUT, List.find?,
      c1, c2, c3, c4, c5, c6, c7, c8, c9, c10, c11]

/-- Claim C1 witness: the amended theorem applied to `"my_vae"` and
`"mystery_model_x"`. -/
theorem folder_classification_witness :
    choose_folder_by_name "my_vae" = "vae" ∧
    choose_folder_by_name "mystery_model_x" = "checkpoints" :=
  folder_classification_amended "my_vae" "mystery_model_x"
    (by decide) (by decide) (by decide) (by decide) (by decide)

/-- Claim C2: after `download_file` runs, the destination path is unchanged
(in particular still absent if it was absent), or it holds the full body
returned by a successful attempt.  The destination is only written through
`os.replace` from the completely written temporary file, so no partially
written content is ever visible at the final path. -/
theorem download_atomicity (url dest : String) (net : Nat → Attempt) (fs : FS)
    (retries : Nat) (backoff : ℚ) :
    (download_file url dest net fs retries backoff).2.1 dest = fs dest ∨
    ∃ i b, net i = Attempt.ok b ∧
      (download_file url dest net fs retries backoff).2.1 dest = some b :=
  downloadLoop_dest url dest (dest ++ ".tmp") backoff net (ne_append_tmp dest)
    (List.range' 1 retries) fs

/-- Claim C5: a mapping with a `models` list yields exactly that list, a bare
sequence yields itself, and any other mapping yields its values in order. -/
theorem manifest_dispatch :
    (∀ (kvs : List (String × Json)) (l : List Json),
        kvs.lookup "models" = some (Json.arr l) →
        getEntries (Json.obj kvs) = some l) ∧
    (∀ l : List Json, getEntries (Json.arr l) = some l) ∧
    (∀ kvs : List (String × Json),
        (∀ l : List Json, kvs.lookup "models" ≠ some (Json.arr l)) →
        getEntries (Json.obj kvs) = some (kvs.map Prod.snd)) := by
  refine ⟨?_, fun l => rfl, ?_⟩
  · intro kvs l h
    simp [getEntries, h]
  · intro kvs h
    cases hm : kvs.lookup "models" with
    | none => simp [getEntries, hm]
    | some v =>
      cases v with
      | arr l => exact absurd hm (h l)
      | null => simp [getEntries, hm]
      | bool b => simp [getEntries, hm]
      | num n => simp [getEntries, hm]
      | str s => simp [getEntries, hm]
      | obj kvs2 => simp [getEntries, hm]

/-- Claim C5 witness: the three dispatch cases at concrete manifests. -/
theorem manifest_dispatch_witness :
    getEntries (Json.obj [("models", Json.arr [Json.num 1])]) = some [Json.num 1] ∧
    getEntries (Json.arr [Json.num 2]) = some [Json.num 2] ∧
    getEntries (Json.obj [("a", Json.str "x"), ("b", Json.null)]) =
      some [Json.str "x", Json.null] :=
  ⟨manifest_dispatch.1 _ _ rfl, manifest_dispatch.2.1 _,
   manifest_dispatch.2.2 _ (fun _ h => nomatch h)⟩

/-- Claim C8: a manifest that is neither a mapping nor a sequence makes the
run exit with status 1 without touching the filesystem, downloading nothing
and emitting no network request. -/
theorem unrecognized_shape (data : Json) (root : String)
    (net : String → Nat → Attempt) (fs0 : FS)
    (h1 : data.isMapping = false) (h2 : data.isSequence = false) :
    main_run data root net fs0 = .ok ⟨1, fs0, [.unrecognizedStructure], 0⟩ ∧
    [Event.unrecognizedStructure].all (fun e => !e.isRequest) = true := by
  refine ⟨?_, by decide⟩
  cases data <;> simp_all [Json.isMapping, Json.isSequence, main_run, getEntries]

/-- Claim C8 witness: the theorem at the scalar manifest `null`. -/
theorem unrecognized_shape_witness :
    main_run Json.null "/m" (fun _ _ => Attempt.failConn) (fun _ => none) =
      .ok ⟨1, (fun _ => none), [.unrecognizedStructure], 0⟩ :=
  (unrecognized_shape Json.null "/m" (fun _ _ => Attempt.failConn)
    (fun _ => none) rfl rfl).1

/-- Claim C4: an entry that resolves to a destination that already exists (any
content) is skipped before any download: `processEntry` leaves the filesystem
untouched, emits only the `ensure_dir` and already-exists events (no network
request), and does not count a download.  Hence a second run over the same
manifest performs no request for any entry whose destination the first run
left in place. -/
theorem skip_if_exists (root : String) (net : String → Nat → Attempt) (e : Json)
    (fs : FS) (urlJ : Json) (dest mk : String) (c : List Nat)
    (h1 : resolveEntry root e = .ok (.entry urlJ dest mk))
    (h2 : fs dest = some c) :
    processEntry root net e fs =
      .ok (fs, [.mkdirs mk, .alreadyExists dest], false) := by
  simp [processEntry, h1, h2]

/-- Claim C4 witness: a name-classified entry whose destination file is
already present. -/
theorem skip_if_exists_witness :
    processEntry "/m" (fun _ _ => Attempt.failConn)
      (Json.obj [("download_url", Json.str "http://h/f.bin")])
      (fun p => if p = "/m/embeddings/f.bin" then some [1] else none) =
    .ok ((fun p => if p = "/m/embeddings/f.bin" then some [1] else none),
         [.mkdirs "/m/embeddings", .alreadyExists "/m/embeddings/f.bin"], false) :=
  skip_if_exists "/m" (fun _ _ => Attempt.failConn)
    (Json.obj [("download_url", Json.str "http://h/f.bin")])
    (fun p => if p = "/m/embeddings/f.bin" then some [1] else none)
    (Json.str "http://h/f.bin") "/m/embeddings/f.bin" "/m/embeddings" [1] rfl rfl

/-- Claim C7, counterexample: with `download_url` present holding `""` (a
present, non-absent value) and `url` holding `"http://x/m.bin"`, the code
resolves the URL to `"http://x/m.bin"`, not to the first present non-absent
value `""` — Python `or` skips every falsy value, not just absent ones. -/
theorem url_resolution_cx :
    urlOf [("download_url", Json.str ""), ("url", Json.str "http://x/m.bin")] =
      Json.str "http://x/m.bin" ∧
    specFirstPresentUrl [("download_url", Json.str ""),
      ("url", Json.str "http://x/m.bin")] = some (Json.str "") ∧
    Json.str "http://x/m.bin" ≠ Json.str "" := by
  refine ⟨rfl, rfl, fun h => ?_⟩
  rw [Json.str.injEq] at h
  exact absurd (congrArg String.length h) (by decide)

/-- Claim C7 (amended): the URL is the first *truthy* value among
`download_url`, `url`, `file_url`, `location` in that order (falsy present
values — `""`, `null`, `0`, `false`, empty containers — are passed over); if
no field holds a truthy value the entry is skipped with the no-URL diagnostic
and the run continues (the entry yields an `.ok` result). -/
theorem url_resolution_amended (kvs : List (String × Json)) (root : String)
    (net : String → Nat → Attempt) (fs : FS) :
    (truthy (urlOf kvs) = true →
      some (urlOf kvs) = (urlFields.map (jget kvs)).find? truthy) ∧
    (truthy (urlOf kvs) = false →
      processEntry root net (Json.obj kvs) fs = .ok (fs, [.logSkipNoUrl], false)) := by
  constructor
  · intro h
    by_cases h1 : truthy (jget kvs "download_url") = true <;>
      by_cases h2 : truthy (jget kvs "url") = true <;>
        by_cases h3 : truthy (jget kvs "file_url") = true <;>
          by_cases h4 : truthy (jget kvs "location") = true <;>
            simp_all [urlOf, urlFields, pyOr, List.find?]
  · intro h
    simp [processEntry, resolveEntry, h]

/-- Claim C7 witness: the amended theorem at an entry whose only URL field is
a truthy `url`, and at an entry with no truthy URL field. -/
theorem url_resolution_witness :
    (some (urlOf [("url", Json.str "http://a/b.vae")]) =
      (urlFields.map (jget [("url", Json.str "http://a/b.vae")])).find? truthy) ∧
    (processEntry "/m" (fun _ _ => Attempt.failConn)
      (Json.obj [("download_url", Json.str "")]) (fun _ => none) =
      .ok ((fun _ => none), [.logSkipNoUrl], false)) :=
  ⟨(url_resolution_amended [("url", Json.str "http://a/b.vae")] "/m"
      (fun _ _ => Attempt.failConn) (fun _ => none)).1 rfl,
   (url_resolution_amended [("download_url", Json.str "")] "/m"
      (fun _ _ => Attempt.failConn) (fun _ => none)).2 rfl⟩

/-- Claim C9, counterexample: an entry that supplies the `path` field with
value `""` does not use `destRoot / relativePath`; the code falls through to
folder classification of the name (Python `or` treats `""` as absent), so the
destination is `/m/vae/model.vae`, not `pathJoin "/m" ""`. -/
theorem explicit_path_cx :
    resolveEntry "/m" (Json.obj [("path", Json.str ""),
      ("name", Json.str "model.vae"), ("download_url", Json.str "http://x/m")]) =
      .ok (.entry (Json.str "http://x/m") "/m/vae/model.vae" "/m/vae") ∧
    "/m/vae/model.vae" ≠ pathJoin "/m" "" :=
  ⟨rfl, by decide⟩

/-- Claim C9 (amended): an entry that supplies a *truthy* (non-empty string)
relative path in either field — `relOf` is the source's
`entry.get("path") or entry.get("relative_path")` chain — resolves its
destination to `destRoot / relativePath` whatever its name field holds —
folder classification is not consulted — and the directory created before
writing is the destination's parent. -/
theorem explicit_path_amended (root : String) (net : String → Nat → Attempt)
    (kvs : List (String × Json)) (rel : String) (nm : Json)
    (h1 : relOf kvs = Json.str rel) (h2 : rel ≠ "")
    (h3 : truthy (urlOf kvs) = true)
    (h4 : resolveName (urlOf kvs) (nameOf kvs) = .ok nm) :
    resolveEntry root (Json.obj kvs) =
      .ok (.entry (urlOf kvs) (pathJoin root rel) (dirname (pathJoin root rel))) ∧
    ∀ (fs : FS) r, processEntry root net (Json.obj kvs) fs = .ok r →
      r.2.1.head? = some (Event.mkdirs (dirname (pathJoin root rel))) := by
  have htr : truthy (Json.str rel) = true := by
    simp [truthy]
    exact h2
  have hre : resolveEntry root (Json.obj kvs) =
      .ok (.entry (urlOf kvs) (pathJoin root rel) (dirname (pathJoin root rel))) := by
    simp [resolveEntry, h3, h4, resolveDest, h1, htr]
  refine ⟨hre, ?_⟩
  intro fs r hr
  simp only [processEntry, hre] at hr
  split at hr
  · injection hr with h
    subst h
    rfl
  · split at hr
    · injection hr with h
      subst h
      rfl
    · injection hr with h
      subst h
      rfl

/-- Claim C9 witness: an entry with both a non-empty `path` and a
classifiable name resolves via the `path` field, and an entry supplying only
`relative_path` resolves via that field. -/
theorem explicit_path_witness :
    (resolveEntry "/m" (Json.obj [("download_url", Json.str "http://h/x.bin"),
      ("name", Json.str "n.vae"), ("path", Json.str "sub/f.bin")]) =
      .ok (.entry (urlOf [("download_url", Json.str "http://h/x.bin"),
        ("name", Json.str "n.vae"), ("path", Json.str "sub/f.bin")])
        (pathJoin "/m" "sub/f.bin") (dirname (pathJoin "/m" "sub/f.bin")))) ∧
    (resolveEntry "/m" (Json.obj [("download_url", Json.str "http://h/y.bin"),
      ("relative_path", Json.str "deep/g.bin")]) =
      .ok (.entry (urlOf [("download_url", Json.str "http://h/y.bin"),
        ("relative_path", Json.str "deep/g.bin")])
        (pathJoin "/m" "deep/g.bin") (dirname (pathJoin "/m" "deep/g.bin")))) :=
  ⟨(explicit_path_amended "/m" (fun _ _ => Attempt.failConn)
      [("download_url", Json.str "http://h/x.bin"), ("name", Json.str "n.vae"),
       ("path", Json.str "sub/f.bin")] "sub/f.bin" (Json.str "n.vae")
      rfl (by decide) rfl rfl).1,
   (explicit_path_amended "/m" (fun _ _ => Attempt.failConn)
      [("download_url", Json.str "http://h/y.bin"),
       ("relative_path", Json.str "deep/g.bin")] "deep/g.bin"
      (Json.str "y.bin") rfl (by decide) rfl rfl).1⟩

lemma strOrNull_pyOr {a b : Json} (ha : strOrNull a = true) (hb : strOrNull b = true) :
    strOrNull (pyOr a b) = true := by
  unfold pyOr
  split <;> assumption

lemma truthy_str_of_strOrNull {j : Json} (hs : strOrNull j = true)
    (ht : truthy j = true) : ∃ s, j = Json.str s := by
  cases j with
  | str s => exact ⟨s, rfl⟩
  | null => simp [truthy] at ht
  | bool b => simp [strOrNull] at hs
  | num n => simp [strOrNull] at hs
  | arr l => simp [strOrNull] at hs
  | obj l => simp [strOrNull] at hs

lemma entryWF_fields {kvs : List (String × Json)} (h : entryWF (Json.obj kvs) = true) :
    ∀ k ∈ entryFields, strOrNull (jget kvs k) = true := by
  simpa [entryWF, List.all_eq_true] using h

lemma processEntry_ok_of_wf (root : String) (net : String → Nat → Attempt)
    (e : Json) (h : entryWF e = true) (fs : FS) :
    ∃ out, processEntry root net e fs = .ok out := by
  cases e with
  | obj kvs =>
    have hf := entryWF_fields h
    have hurl : strOrNull (urlOf kvs) = true :=
      strOrNull_pyOr (hf "download_url" (by decide))
        (strOrNull_pyOr (hf "url" (by decide))
          (strOrNull_pyOr (hf "file_url" (by decide)) (hf "location" (by decide))))
    have hname : strOrNull (nameOf kvs) = true :=
      strOrNull_pyOr (hf "name" (by decide)) (hf "filename" (by decide))
    have hrel : strOrNull (relOf kvs) = true :=
      strOrNull_pyOr (hf "path" (by decide)) (hf "relative_path" (by decide))
    by_cases ht : truthy (urlOf kvs) = true
    · obtain ⟨u, hu_eq⟩ := truthy_str_of_strOrNull hurl ht
      have hnm : ∃ n, resolveName (urlOf kvs) (nameOf kvs) = .ok (Json.str n) := by
        by_cases htn : truthy (nameOf kvs) = true
        · obtain ⟨n, hn_eq⟩ := truthy_str_of_strOrNull hname htn
          have htn2 : truthy (Json.str n) = true := by rw [← hn_eq]; exact htn
          exact ⟨n, by simp [resolveName, hn_eq, htn2]⟩
        · exact ⟨urlBasename u, by simp [resolveName, htn, hu_eq]⟩
      obtain ⟨n, hn_eq⟩ := hnm
      have hdst : ∃ dm : String × String,
          resolveDest root (relOf kvs) (Json.str n) = .ok dm := by
        by_cases htr : truthy (relOf kvs) = true
        · obtain ⟨rl, hrl⟩ := truthy_str_of_strOrNull hrel htr
          have htr2 : truthy (Json.str rl) = true := by rw [← hrl]; exact htr
          exact ⟨(pathJoin root rl, dirname (pathJoin root rl)),
            by simp [resolveDest, hrl, htr2]⟩
        · exact ⟨(pathJoin (pathJoin root (choose_folder_by_name n)) n,
            pathJoin root (choose_folder_by_name n)), by simp [resolveDest, htr]⟩
      obtain ⟨⟨dest, mk⟩, hdm⟩ := hdst
      have hres : resolveEntry root (Json.obj kvs) = .ok (.entry (urlOf kvs) dest mk) := by
        simp [resolveEntry, ht, hn_eq, hdm]
      simp only [processEntry, hres]
      rw [hu_eq]
      split
      · exact ⟨_, rfl⟩
      · exact ⟨_, rfl⟩
    · have hf2 : truthy (urlOf kvs) = false := by simpa using ht
      exact ⟨(fs, [Event.logSkipNoUrl], false),
        by simp [processEntry, resolveEntry, hf2]⟩
  | null => simp [entryWF] at h
  | bool b => simp [entryWF] at h
  | num n => simp [entryWF] at h
  | str s => simp [entryWF] at h
  | arr l => simp [entryWF] at h

lemma runLoop_ok_of_wf (root : String) (net : String → Nat → Attempt)
    (es : List Json) (h : ∀ e ∈ es, entryWF e = true) :
    ∀ fs, ∃ out, runLoop root net es fs = .ok out := by
  induction es with
  | nil => intro fs; exact ⟨_, rfl⟩
  | cons e rest ih =>
    intro fs
    obtain ⟨⟨fs1, evs1, dl⟩, hpe⟩ :=
      processEntry_ok_of_wf root net e (h e (by simp)) fs
    obtain ⟨⟨fs2, evs2, n⟩, hloop⟩ := ih (fun x hx => h x (by simp [hx])) fs1
    exact ⟨(fs2, evs1 ++ evs2, (if dl then 1 else 0) + n),
      by simp [runLoop, hpe, hloop]⟩

lemma getEntries_isSome_of_shape {data : Json}
    (h : data.isMapping = true ∨ data.isSequence = true) :
    ∃ es, getEntries data = some es := by
  cases data with
  | obj kvs =>
    cases hm : kvs.lookup "models" with
    | none => exact ⟨kvs.map Prod.snd, by simp [getEntries, hm]⟩
    | some v =>
      cases v with
      | arr l => exact ⟨l, by simp [getEntries, hm]⟩
      | null => exact ⟨kvs.map Prod.snd, by simp [getEntries, hm]⟩
      | bool b => exact ⟨kvs.map Prod.snd, by simp [getEntries, hm]⟩
      | num n => exact ⟨kvs.map Prod.snd, by simp [getEntries, hm]⟩
      | str s => exact ⟨kvs.map Prod.snd, by simp [getEntries, hm]⟩
      | obj k2 => exact ⟨kvs.map Prod.snd, by simp [getEntries, hm]⟩
  | arr l => exact ⟨l, rfl⟩
  | null => rcases h with h | h <;> simp [Json.isMapping, Json.isSequence] at h
  | bool b => rcases h with h | h <;> simp [Json.isMapping, Json.isSequence] at h
  | num n => rcases h with h | h <;> simp [Json.isMapping, Json.isSequence] at h
  | str s => rcases h with h | h <;> simp [Json.isMapping, Json.isSequence] at h

/-- Claim C3, counterexample: the manifest `["hello"]` is a sequence, yet the
run does not complete with exit status 0 — the entry is not a mapping, so
`entry.get` raises an uncaught `AttributeError` and the process crashes. -/
theorem run_completes_cx :
    main_run (Json.arr [Json.str "hello"]) "/m" (fun _ _ => Attempt.failConn)
      (fun _ => none) = .error "AttributeError: get on non-mapping entry" ∧
    exitCodeOf (main_run (Json.arr [Json.str "hello"]) "/m"
      (fun _ _ => Attempt.failConn) (fun _ => none)) ≠ some 0 :=
  ⟨rfl, fun h => nomatch h⟩

/-- Claim C3 (amended): for every manifest that is a mapping or a sequence
all of whose entries are JSON objects whose recognized fields hold strings or
nulls, the run processes every entry to completion and exits with status 0,
however the downloads fail (the network oracle is arbitrary); per-entry
conditions (missing URL, download failure) are recovered locally. -/
theorem run_completes_amended (data : Json) (root : String)
    (net : String → Nat → Attempt) (fs0 : FS)
    (h1 : data.isMapping = true ∨ data.isSequence = true)
    (h2 : ∀ e ∈ entriesOf data, entryWF e = true) :
    exitCodeOf (main_run data root net fs0) = some 0 := by
  obtain ⟨es, hes⟩ := getEntries_isSome_of_shape h1
  have h2' : ∀ e ∈ es, entryWF e = true := by
    simpa [entriesOf, hes] using h2
  obtain ⟨⟨fs1, evs, n⟩, hloop⟩ := runLoop_ok_of_wf root net es h2' fs0
  simp [main_run, hes, hloop, exitCodeOf]

/-- Claim C3 witness: a two-entry manifest (one downloadable entry whose
every attempt fails, one entry with no URL) still exits 0. -/
theorem run_completes_witness :
    exitCodeOf (main_run (Json.obj [("models", Json.arr
      [Json.obj [("download_url", Json.str "http://x/a.vae")],
       Json.obj [("name", Json.str "b.pt")]])]) "/m"
      (fun _ _ => Attempt.failConn) (fun _ => none)) = some 0 :=
  run_completes_amended _ "/m" (fun _ _ => Attempt.failConn) (fun _ => none)
    (Or.inl rfl) (by decide)

lemma downloadLoop_request_count (url dest tmp : String) (backoff : ℚ)
    (net : Nat → Attempt) (atts : List Nat) : ∀ fs : FS,
    ((downloadLoop url dest tmp backoff net atts fs).2.2.countP Event.isRequest)
      ≤ atts.length := by
  induction atts with
  | nil => intro fs; simp [downloadLoop]
  | cons att rest ih =>
    intro fs
    cases hn : net att with
    | ok body => simp [downloadLoop, hn, List.countP_cons, Event.isRequest]
    | failMid c =>
      have h2 := ih (fs.set tmp (some c))
      simp [downloadLoop, hn, List.countP_cons, Event.isRequest]
      omega
    | failConn =>
      have h2 := ih fs
      simp [downloadLoop, hn, List.countP_cons, Event.isRequest]
      omega

/-- Claim C6: with the default 3 retries and base delay 3/2, the engine makes
at most 3 requests for any network behavior; when every attempt fails, it
returns `False`, leaves the destination path exactly as it was (in particular
creates no file there), and its events are exactly one request, one
failure log, and one sleep of `3/2 * attempt` per attempt 1, 2, 3; and a
failed entry never aborts the loop: `runLoop` continues with the remaining
entries. -/
theorem retry_policy (url dest : String) (net : Nat → Attempt) (fs : FS)
    (h : ∀ i, 1 ≤ i → i ≤ 3 → ∀ b, net i ≠ Attempt.ok b) :
    (download_file url dest net fs 3 (3 / 2)).1 = false ∧
    (download_file url dest net fs 3 (3 / 2)).2.1 dest = fs dest ∧
    (download_file url dest net fs 3 (3 / 2)).2.2 =
      [.request url, .logFail 1, .sleep (3 / 2),
       .request url, .logFail 2, .sleep 3,
       .request url, .logFail 3, .sleep (9 / 2)] ∧
    (∀ net' : Nat → Attempt,
      ((download_file url dest net' fs 3 (3 / 2)).2.2.countP Event.isRequest) ≤ 3) ∧
    (∀ (root : String) (net2 : String → Nat → Attempt) (e : Json)
       (rest : List Json) (fs2 fs3 : FS) (evs : List Event),
       processEntry root net2 e fs2 = .ok (fs3, evs, false) →
       runLoop root net2 (e :: rest) fs2 =
         match runLoop root net2 rest fs3 with
         | .error m => .error m
         | .ok (fs4, evs2, n) => .ok (fs4, evs ++ evs2, n)) := by
  have hne : dest ≠ dest ++ ".tmp" := ne_append_tmp dest
  have hrange : List.range' 1 3 = [1, 2, 3] := rfl
  have hsh1 := attempt_not_ok_shape (net 1) (h 1 (by norm_num) (by norm_num))
  have hsh2 := attempt_not_ok_shape (net 2) (h 2 (by norm_num) (by norm_num))
  have hsh3 := attempt_not_ok_shape (net 3) (h 3 (by norm_num) (by norm_num))
  have key : (download_file url dest net fs 3 (3 / 2)).1 = false ∧
      (download_file url dest net fs 3 (3 / 2)).2.1 dest = fs dest ∧
      (download_file url dest net fs 3 (3 / 2)).2.2 =
        [.request url, .logFail 1, .sleep (3 / 2),
         .request url, .logFail 2, .sleep 3,
         .request url, .logFail 3, .sleep (9 / 2)] := by
    rcases hsh1 with ⟨c1, hn1⟩ | hn1 <;> rcases hsh2 with ⟨c2, hn2⟩ | hn2 <;>
      rcases hsh3 with ⟨c3, hn3⟩ | hn3 <;>
      refine ⟨?_, ?_, ?_⟩ <;>
      norm_num [download_file, hrange, downloadLoop, hn1, hn2, hn3, FS.set, hne]
  refine ⟨key.1, key.2.1, key.2.2, ?_, ?_⟩
  · intro net'
    have hc := downloadLoop_request_count url dest (dest ++ ".tmp") (3 / 2) net'
      (List.range' 1 3) fs
    simpa [download_file, hrange] using hc
  · intro root net2 e rest fs2 fs3 evs hpe
    cases hr : runLoop root net2 rest fs3 <;> simp [runLoop, hpe, hr]

/-- Claim C6 witness: an always-connection-refused URL with the default
settings. -/
theorem retry_policy_witness :
    (download_file "u" "d" (fun _ => Attempt.failConn) (fun _ => none)
      3 (3 / 2)).1 = false ∧
    (download_file "u" "d" (fun _ => Attempt.failConn) (fun _ => none)
      3 (3 / 2)).2.2 =
      [.request "u", .logFail 1, .sleep (3 / 2),
       .request "u", .logFail 2, .sleep 3,
       .request "u", .logFail 3, .sleep (9 / 2)] :=
  ⟨(retry_policy "u" "d" (fun _ => Attempt.failConn) (fun _ => none)
      (fun _ _ _ _ hb => Attempt.noConfusion hb)).1,
   (retry_policy "u" "d" (fun _ => Attempt.failConn) (fun _ => none)
      (fun _ _ _ _ hb => Attempt.noConfusion hb)).2.2.1⟩

/-- Claim C10, counterexample: when all three attempts fail at `urlopen`
(connection failure, nothing written), the run leaves *no* temporary file:
`<dest>.tmp` is absent, contradicting the claim that a `.tmp` file with the
last attempt's partial content is always left behind on total failure. -/
theorem tmp_leftover_cx :
    (download_file "u" "d" (fun _ => Attempt.failConn) (fun _ => none)
      3 (3 / 2)).1 = false ∧
    (download_file "u" "d" (fun _ => Attempt.failConn) (fun _ => none)
      3 (3 / 2)).2.1 "d" = none ∧
    (download_file "u" "d" (fun _ => Attempt.failConn) (fun _ => none)
      3 (3 / 2)).2.1 ("d" ++ ".tmp") = none :=
  ⟨rfl, rfl, rfl⟩

/-- Claim C10 (amended): when every attempt fails, the destination path keeps
its previous state (never created), and the temporary file is never deleted
by the failure path: `<dest>.tmp` holds the partial content of the *last
attempt that reached the body-writing stage* if there is one, and otherwise
keeps its previous state (in particular, no `.tmp` file is created when every
attempt fails before writing). -/
theorem tmp_leftover_amended (url dest : String) (net : Nat → Attempt) (fs : FS)
    (h : ∀ i, 1 ≤ i → i ≤ 3 → ∀ b, net i ≠ Attempt.ok b) :
    (download_file url dest net fs 3 (3 / 2)).2.1 dest = fs dest ∧
    (download_file url dest net fs 3 (3 / 2)).2.1 (dest ++ ".tmp") =
      (match lastMidWrite net (List.range' 1 3) with
       | some c => some c
       | none => fs (dest ++ ".tmp")) := by
  have hne : dest ≠ dest ++ ".tmp" := ne_append_tmp dest
  have hrange : List.range' 1 3 = [1, 2, 3] := rfl
  have hsh1 := attempt_not_ok_shape (net 1) (h 1 (by norm_num) (by norm_num))
  have hsh2 := attempt_not_ok_shape (net 2) (h 2 (by norm_num) (by norm_num))
  have hsh3 := attempt_not_ok_shape (net 3) (h 3 (by norm_num) (by norm_num))
  rcases hsh1 with ⟨c1, hn1⟩ | hn1 <;> rcases hsh2 with ⟨c2, hn2⟩ | hn2 <;>
    rcases hsh3 with ⟨c3, hn3⟩ | hn3 <;>
    refine ⟨?_, ?_⟩ <;>
    simp [download_file, hrange, downloadLoop, lastMidWrite, List.filterMap,
      hn1, hn2, hn3, FS.set, hne]

/-- Claim C10 witness: attempt 1 writes a partial chunk, attempts 2 and 3
fail at connect; the leftover `.tmp` holds attempt 1's chunk. -/
theorem tmp_leftover_witness :
    (download_file "u" "d"
      (fun i => if i = 1 then Attempt.failMid [7] else Attempt.failConn)
      (fun _ => none) 3 (3 / 2)).2.1 ("d" ++ ".tmp") = some [7] :=
  ((tmp_leftover_amended "u" "d"
    (fun i => if i = 1 then Attempt.failMid [7] else Attempt.failConn)
    (fun _ => none)
    (by
      intro i _ _ b hb
      by_cases h1 : i = 1 <;> simp [h1] at hb)).2).trans rfl
